import Mathlib

/-!
Verification of the credit-based document scanner backend.

The development shallowly embeds the similarity-scan subsystem of the
repository: the pairwise similarity metric (calculateSimilarity), the
scan route (submitScan and its comparison loop), the credit-request
decision routes (approveRequest, rejectRequest), registration, the
credit-request route and the daily reset job, together with an
interleaving model of two concurrent scan requests against the same
user row. Machine numbers are modelled as Int and Nat, rational
similarity scores as exact rationals.
-/

/-- Modelled from the spec: the repository calls the external
fast-levenshtein library (not part of the repository sources) to obtain
the classic single-character insertion, deletion and substitution edit
distance; this is the Levenshtein distance with unit costs. -/
def editDistance (a b : List Char) : Nat :=
  levenshtein Levenshtein.defaultCost a b

/-- Embedding of the helper function calculateSimilarity, src/unnamed/part_000
lines 137 to 142: zero when either input has zero length, otherwise
one minus the edit distance divided by the length of the longer input. -/
def calculateSimilarity (text1 text2 : List Char) : ℚ :=
  if text1.length = 0 ∨ text2.length = 0 then 0
  else 1 - (editDistance text1 text2 : ℚ) / ((max text1.length text2.length : Nat) : ℚ)

/-- A row of the users table: id, role and integer credit balance.
Authentication columns (username, email, password hash) play no role in
the verified claims and are omitted. -/
structure UserRec where
  id : Nat
  role : String
  credits : Int
  deriving DecidableEq

/-- A row of the documents table: owner id, storage key (filePath) and
display name. -/
structure DocumentRec where
  userId : Nat
  filePath : String
  fileName : String
  deriving DecidableEq

/-- A row of the credit_requests table: id, owner id, requested amount
and status (pending, approved or rejected). -/
structure CreditRequestRec where
  id : Nat
  userId : Nat
  amount : Int
  status : String
  deriving DecidableEq

/-- The persistent state of the backend: the three sqlite tables, the
uploads directory as an association list from storage key to file body,
and the autoincrement counters of the users and credit_requests tables. -/
structure DB where
  users : List UserRec
  documents : List DocumentRec
  requests : List CreditRequestRec
  storage : List (String × String)
  nextUserId : Nat
  nextRequestId : Nat
  deriving DecidableEq

/-- Reading a file from the uploads directory; none models a failed read
(missing or unreadable file). -/
def readBlob (storage : List (String × String)) (key : String) : Option String :=
  storage.lookup key

/-- fs.promises.writeFile: stores the body under the key, overwriting any
previous body held under the same key. -/
def putBlob (storage : List (String × String)) (key text : String) :
    List (String × String) :=
  (key, text) :: storage.filter (fun p => p.1 ≠ key)

/-- The corpus read-back of the scan route, src/unnamed/part_000 line 176:
SELECT filePath, fileName FROM documents WHERE filePath != ?. -/
def listExcept (docs : List DocumentRec) (key : String) : List DocumentRec :=
  docs.filter (fun d => d.filePath ≠ key)

/-- The comparison loop of the scan route, src/unnamed/part_000 lines 179
to 197: read each listed document, skip it when the read fails, and keep
a match when the similarity is strictly greater than 0.6. -/
def compareLoop (storage : List (String × String)) (text : String) :
    List DocumentRec → List (String × ℚ)
  | [] => []
  | d :: ds =>
    match readBlob storage d.filePath with
    | none => compareLoop storage text ds
    | some existingText =>
      if (0.6 : ℚ) < calculateSimilarity text.toList existingText.toList then
        (d.fileName, calculateSimilarity text.toList existingText.toList) ::
          compareLoop storage text ds
      else compareLoop storage text ds

/-- UPDATE users SET credits = credits - 1 WHERE id = ?, src/unnamed/part_000
line 162. -/
def deductCredit (users : List UserRec) (uid : Nat) : List UserRec :=
  users.map (fun u => if u.id = uid then { u with credits := u.credits - 1 } else u)

/-- Outcome of the scan route as observed by the client. -/
inductive ScanResult where
  | validationError
  | insufficientCredit
  | serverError
  | completed (docId : Nat) (creditsLeft : Int) (matchList : List (String × ℚ))
  deriving DecidableEq

/-- Embedding of the scan route, src/unnamed/part_000 lines 145 to 212,
run to completion with no interleaving: validate the input, read the
credit balance of the caller, reject when below 1, otherwise decrement
it, write the new document body (putOk injects a storage fault when
false, in which case the handler falls to the catch block and answers
500 with the credit already deducted and no document row inserted),
insert the document row, list every document row with a different
storage key and compare against each. -/
def submitScan (db : DB) (uid : Nat) (text fileName : String) (now : Nat)
    (putOk : Bool) : DB × ScanResult :=
  if text = "" ∨ fileName = "" then (db, .validationError)
  else
    match db.users.find? (fun u => u.id = uid) with
    | none => (db, .insufficientCredit)
    | some user =>
      if user.credits < 1 then (db, .insufficientCredit)
      else
        let db1 := { db with users := deductCredit db.users uid }
        let savedFileName := toString now ++ "_" ++ fileName
        if putOk then
          let db2 := { db1 with
            storage := putBlob db1.storage savedFileName text,
            documents := ⟨uid, savedFileName, fileName⟩ :: db1.documents }
          (db2, .completed now (user.credits - 1)
            (compareLoop db2.storage text (listExcept db2.documents savedFileName)))
        else (db1, .serverError)

/-- Outcome of the admin decision routes. -/
inductive DecideResult where
  | notFound
  | ok
  deriving DecidableEq

/-- UPDATE users SET credits = credits + ? WHERE id = ?, src/unnamed/part_000
line 277. -/
def grantCredits (users : List UserRec) (uid : Nat) (amount : Int) : List UserRec :=
  users.map (fun u => if u.id = uid then { u with credits := u.credits + amount } else u)

/-- Embedding of the approve route, src/unnamed/part_000 lines 266 to 284:
look the request up by id alone (no status filter), answer 404 when
absent, otherwise grant the credits and set the status to approved. -/
def approveRequest (db : DB) (reqId : Nat) : DB × DecideResult :=
  match db.requests.find? (fun r => r.id = reqId) with
  | none => (db, .notFound)
  | some r =>
    ({ db with
        users := grantCredits db.users r.userId r.amount,
        requests := db.requests.map
          (fun q => if q.id = reqId then { q with status := "approved" } else q) },
      .ok)

/-- Embedding of the reject route, src/unnamed/part_000 lines 287 to 301:
unconditionally set the status of the row with the given id to rejected
and answer 200, with no existence or status check. -/
def rejectRequest (db : DB) (reqId : Nat) : DB × DecideResult :=
  ({ db with
      requests := db.requests.map
        (fun q => if q.id = reqId then { q with status := "rejected" } else q) },
    .ok)

/-- Embedding of the registration route, src/unnamed/part_000 line 84: a
new row with role user and the schema default of 20 credits
(src/database/database.js lines 45 to 57), under a fresh autoincrement id. -/
def registerUser (db : DB) : DB :=
  { db with
    users := ⟨db.nextUserId, "user", 20⟩ :: db.users,
    nextUserId := db.nextUserId + 1 }

/-- Embedding of the credit-request route, src/unnamed/part_000 lines 216
to 228: amounts below 1 are rejected, otherwise a pending row is
inserted. -/
def requestCredits (db : DB) (uid : Nat) (amount : Int) : DB × Bool :=
  if amount < 1 then (db, false)
  else
    ({ db with
        requests := ⟨db.nextRequestId, uid, amount, "pending"⟩ :: db.requests,
        nextRequestId := db.nextRequestId + 1 },
      true)

/-- Embedding of the midnight cron job, src/unnamed/part_000 lines 366 to
374: UPDATE users SET credits = 20 WHERE role = 'user'. -/
def resetCredits (db : DB) : DB :=
  { db with
      users := db.users.map
        (fun u => if u.role = "user" then { u with credits := 20 } else u) }

/-- Local state of one in-flight scan request in the interleaving model:
program counter (0 before the SELECT, 1 between the SELECT and the
UPDATE, 2 finished), the balance value it read, and its outcome (some
true means the request proceeded past the credit gate, some false means
it answered 403 insufficient credits). -/
structure ScanProc where
  pc : Nat
  localCredits : Int
  result : Option Bool
  deriving DecidableEq

/-- Shared state of two concurrent scan requests by the same user: the
credits column of that user and the two request handlers. -/
structure RaceState where
  credits : Int
  proc1 : ScanProc
  proc2 : ScanProc
  deriving DecidableEq

/-- One database round-trip of one handler of the scan route,
src/unnamed/part_000 lines 156 to 162. Step 0 is the awaited SELECT
credits; step 1 is the falsiness check on the value read followed, when
it passes, by the awaited UPDATE credits = credits - 1. Other handlers
may run between the two awaits. -/
def procStep (credits : Int) (p : ScanProc) : Int × ScanProc :=
  match p.pc with
  | 0 => (credits, { p with pc := 1, localCredits := credits })
  | 1 =>
    if p.localCredits < 1 then (credits, { p with pc := 2, result := some false })
    else (credits - 1, { p with pc := 2, result := some true })
  | _ => (credits, p)

/-- Run one round-trip of the chosen handler (true picks the first). -/
def raceStep (s : RaceState) (which : Bool) : RaceState :=
  if which then
    let (c, p) := procStep s.credits s.proc1
    { s with credits := c, proc1 := p }
  else
    let (c, p) := procStep s.credits s.proc2
    { s with credits := c, proc2 := p }

/-- Run the two concurrent handlers under a given interleaving. -/
def runRace (s : RaceState) (sched : List Bool) : RaceState :=
  sched.foldl raceStep s

/-- The operations of the credit subsystem, each executed to completion
with no interleaving. -/
inductive Op where
  | register
  | scan (uid : Nat) (text fileName : String) (now : Nat) (putOk : Bool)
  | request (uid : Nat) (amount : Int)
  | approve (reqId : Nat)
  | reject (reqId : Nat)
  | reset

/-- State reached after one operation. -/
def applyOp (db : DB) : Op → DB
  | .register => registerUser db
  | .scan uid text fileName now putOk => (submitScan db uid text fileName now putOk).1
  | .request uid amount => (requestCredits db uid amount).1
  | .approve reqId => (approveRequest db reqId).1
  | .reject reqId => (rejectRequest db reqId).1
  | .reset => resetCredits db

/-- State reached after a sequence of operations. -/
def runOps (db : DB) (ops : List Op) : DB := ops.foldl applyOp db

/-- The credit invariant: every balance is non-negative, every stored
request amount is at least 1 (enforced at insertion), user ids are
distinct (primary key) and below the autoincrement counter. -/
def CreditsInv (db : DB) : Prop :=
  (∀ u ∈ db.users, 0 ≤ u.credits) ∧
  (∀ r ∈ db.requests, 1 ≤ r.amount) ∧
  db.users.Pairwise (fun a b => a.id ≠ b.id) ∧
  (∀ u ∈ db.users, u.id < db.nextUserId)

theorem editDistance_nil_left (b : List Char) : editDistance [] b = b.length := by
  induction b with
  | nil => simp [editDistance]
  | cons y ys ih => simp [editDistance, Levenshtein.defaultCost] at ih ⊢; omega

theorem editDistance_nil_right (a : List Char) : editDistance a [] = a.length := by
  induction a with
  | nil => simp [editDistance]
  | cons x xs ih => simp [editDistance, Levenshtein.defaultCost] at ih ⊢; omega

theorem editDistance_cons_cons (x y : Char) (xs ys : List Char) :
    editDistance (x :: xs) (y :: ys) =
      min (1 + editDistance xs (y :: ys))
        (min (1 + editDistance (x :: xs) ys)
          ((if x = y then 0 else 1) + editDistance xs ys)) := by
  simp only [editDistance, levenshtein_cons_cons, Levenshtein.defaultCost_delete,
    Levenshtein.defaultCost_insert, Levenshtein.defaultCost_substitute]

theorem editDistance_le_max (a b : List Char) :
    editDistance a b ≤ max a.length b.length := by
  induction a generalizing b with
  | nil => simp [editDistance_nil_left]
  | cons x xs iha =>
    induction b with
    | nil => simp [editDistance_nil_right]
    | cons y ys ihb =>
      have h3 : editDistance (x :: xs) (y :: ys) ≤
          (if x = y then 0 else 1) + editDistance xs ys := by
        rw [editDistance_cons_cons]
        exact le_trans (min_le_right _ _) (min_le_right _ _)
      have := iha ys
      simp only [List.length_cons]
      split at h3 <;> omega

theorem length_sub_le_editDistance (a b : List Char) :
    a.length - b.length ≤ editDistance a b := by
  induction a generalizing b with
  | nil => simp
  | cons x xs iha =>
    induction b with
    | nil => rw [editDistance_nil_right]; omega
    | cons y ys ihb =>
      rw [editDistance_cons_cons]
      have h1 := iha (y :: ys)
      have h2 := iha ys
      simp only [List.length_cons] at h1 ihb ⊢
      split <;> omega

theorem editDistance_replicate (c : Char) (n k : Nat) :
    editDistance (List.replicate (n + k) c) (List.replicate n c) = k := by
  induction n with
  | zero => simp [editDistance_nil_right]
  | succ n ih =>
    have hs : n + 1 + k = (n + k) + 1 := by omega
    rw [hs, List.replicate_succ, List.replicate_succ c n, editDistance_cons_cons]
    have h1 := length_sub_le_editDistance (List.replicate (n + k) c) (c :: List.replicate n c)
    have h2 := length_sub_le_editDistance (c :: List.replicate (n + k) c) (List.replicate n c)
    simp only [List.length_replicate, List.length_cons] at h1 h2
    rw [if_pos rfl, ih]
    omega

/-- Claim C4: similarity is 0 whenever either input has zero length,
including the case of two empty inputs. -/
theorem calculateSimilarity_zero_of_empty (a b : List Char)
    (h : a.length = 0 ∨ b.length = 0) : calculateSimilarity a b = 0 := by
  unfold calculateSimilarity
  rw [if_pos h]

theorem calculateSimilarity_zero_of_empty_witness :
    calculateSimilarity "".toList "".toList = 0 ∧
    calculateSimilarity "".toList "x".toList = 0 :=
  ⟨calculateSimilarity_zero_of_empty _ _ (Or.inl rfl),
   calculateSimilarity_zero_of_empty _ _ (Or.inl rfl)⟩

/-- Claim C3: for non-empty inputs the similarity equals one minus the
Levenshtein distance divided by the longer length, and it always lies in
the closed interval from 0 to 1. -/
theorem calculateSimilarity_eq_normalized (a b : List Char) (ha : a ≠ []) (hb : b ≠ []) :
    calculateSimilarity a b =
        1 - (editDistance a b : ℚ) / ((max a.length b.length : Nat) : ℚ) ∧
    0 ≤ calculateSimilarity a b ∧ calculateSimilarity a b ≤ 1 := by
  have hla : a.length ≠ 0 := by simpa using ha
  have hlb : b.length ≠ 0 := by simpa using hb
  have heq : calculateSimilarity a b =
      1 - (editDistance a b : ℚ) / ((max a.length b.length : Nat) : ℚ) := by
    unfold calculateSimilarity
    rw [if_neg (by tauto)]
  have hm : (0 : ℚ) < ((max a.length b.length : Nat) : ℚ) := by
    have h0 : 0 < max a.length b.length := by omega
    exact_mod_cast h0
  have hd : (editDistance a b : ℚ) ≤ ((max a.length b.length : Nat) : ℚ) := by
    exact_mod_cast editDistance_le_max a b
  refine ⟨heq, ?_, ?_⟩
  · rw [heq]
    have hle : (editDistance a b : ℚ) / ((max a.length b.length : Nat) : ℚ) ≤ 1 :=
      (div_le_one hm).mpr hd
    linarith
  · rw [heq]
    have hge : 0 ≤ (editDistance a b : ℚ) / ((max a.length b.length : Nat) : ℚ) :=
      div_nonneg (by positivity) (le_of_lt hm)
    linarith

theorem calculateSimilarity_eq_normalized_witness :
    calculateSimilarity "kitten".toList "sitting".toList = 1 - 3 / 7 ∧
    0 ≤ calculateSimilarity "kitten".toList "sitting".toList ∧
    calculateSimilarity "kitten".toList "sitting".toList ≤ 1 := by
  have h := calculateSimilarity_eq_normalized "kitten".toList "sitting".toList
    (by decide) (by decide)
  refine ⟨?_, h.2.1, h.2.2⟩
  rw [h.1]
  have hd : editDistance "kitten".toList "sitting".toList = 3 := by decide
  have hm : max "kitten".toList.length "sitting".toList.length = 7 := by decide
  rw [hd, hm]
  norm_num

theorem compareLoop_cons_none (storage : List (String × String)) (text : String)
    (d : DocumentRec) (ds : List DocumentRec) (h : readBlob storage d.filePath = none) :
    compareLoop storage text (d :: ds) = compareLoop storage text ds := by
  simp only [compareLoop, h]

theorem compareLoop_cons_some (storage : List (String × String)) (text : String)
    (d : DocumentRec) (ds : List DocumentRec) (t : String)
    (h : readBlob storage d.filePath = some t) :
    compareLoop storage text (d :: ds) =
      if (0.6 : ℚ) < calculateSimilarity text.toList t.toList then
        (d.fileName, calculateSimilarity text.toList t.toList) ::
          compareLoop storage text ds
      else compareLoop storage text ds := by
  simp only [compareLoop, h]

theorem compareLoop_score_gt (storage : List (String × String)) (text : String)
    (docs : List DocumentRec) : ∀ p ∈ compareLoop storage text docs, (0.6 : ℚ) < p.2 := by
  induction docs with
  | nil => intro p hp; simp [compareLoop] at hp
  | cons d ds ih =>
    intro p hp
    cases hr : readBlob storage d.filePath with
    | none =>
      rw [compareLoop_cons_none storage text d ds hr] at hp
      exact ih p hp
    | some t =>
      rw [compareLoop_cons_some storage text d ds t hr] at hp
      split at hp
      · next hc =>
        rcases List.mem_cons.mp hp with h | h
        · subst h; exact hc
        · exact ih p h
      · exact ih p hp

/-- Claim C5: a listed document whose body reads back as t appears in the
match list with its similarity score exactly when that score is strictly
greater than 0.6. -/
theorem compareLoop_mem_iff (storage : List (String × String)) (text : String)
    (docs : List DocumentRec) (d : DocumentRec) (t : String)
    (hd : d ∈ docs) (ht : readBlob storage d.filePath = some t) :
    ((d.fileName, calculateSimilarity text.toList t.toList) ∈ compareLoop storage text docs
      ↔ (0.6 : ℚ) < calculateSimilarity text.toList t.toList) := by
  constructor
  · intro hmem
    exact compareLoop_score_gt storage text docs _ hmem
  · intro hc
    induction hd with
    | head as =>
      rw [compareLoop_cons_some storage text d as t ht, if_pos hc]
      exact List.mem_cons_self _ _
    | tail b hmem ih =>
      cases hr : readBlob storage b.filePath with
      | none =>
        rw [compareLoop_cons_none storage text b _ hr]
        exact ih
      | some t2 =>
        rw [compareLoop_cons_some storage text b _ t2 hr]
        split
        · exact List.mem_cons_of_mem _ ih
        · exact ih

theorem calculateSimilarity_threeFifths :
    calculateSimilarity "abcde".toList "abxye".toList = 3 / 5 := by
  have hd : editDistance "abcde".toList "abxye".toList = 2 := by decide
  unfold calculateSimilarity
  rw [if_neg (by decide), hd]
  norm_num

theorem calculateSimilarity_sixtyOne :
    calculateSimilarity (List.replicate 100 'a') (List.replicate 61 'a') = 61 / 100 := by
  have hd : editDistance (List.replicate 100 'a') (List.replicate 61 'a') = 39 := by
    have h := editDistance_replicate 'a' 61 39
    norm_num at h
    exact h
  have hm : max (List.replicate 100 'a').length (List.replicate 61 'a').length = 100 := by
    simp
  unfold calculateSimilarity
  rw [if_neg (by simp), hd, hm]
  norm_num

theorem compareLoop_mem_iff_witness :
    (("old.txt", calculateSimilarity "abcde".toList "abxye".toList) ∉
        compareLoop [("k1", "abxye")] "abcde" [⟨7, "k1", "old.txt"⟩]) ∧
    (("rep.txt", calculateSimilarity (String.mk (List.replicate 100 'a')).toList
          (String.mk (List.replicate 61 'a')).toList) ∈
        compareLoop [("k2", String.mk (List.replicate 61 'a'))]
          (String.mk (List.replicate 100 'a')) [⟨7, "k2", "rep.txt"⟩]) := by
  constructor
  · intro hmem
    have h := compareLoop_mem_iff [("k1", "abxye")] "abcde" [⟨7, "k1", "old.txt"⟩]
      ⟨7, "k1", "old.txt"⟩ "abxye" (List.mem_singleton_self _) (by decide)
    have hlt := h.mp hmem
    rw [calculateSimilarity_threeFifths] at hlt
    norm_num at hlt
  · have h := compareLoop_mem_iff [("k2", String.mk (List.replicate 61 'a'))]
      (String.mk (List.replicate 100 'a')) [⟨7, "k2", "rep.txt"⟩]
      ⟨7, "k2", "rep.txt"⟩ (String.mk (List.replicate 61 'a'))
      (List.mem_singleton_self _) (by decide)
    apply h.mpr
    have he : (String.mk (List.replicate 100 'a')).toList = List.replicate 100 'a' := rfl
    have he2 : (String.mk (List.replicate 61 'a')).toList = List.replicate 61 'a' := rfl
    rw [he, he2, calculateSimilarity_sixtyOne]
    norm_num

/-- Claim C1 is refuted by the code: the scan route issues a plain SELECT
of the balance followed by a separate unconditional UPDATE. Under the
interleaving in which both handlers run their SELECT before either runs
its UPDATE, a user holding exactly 1 credit has both concurrent scans
pass the credit gate and ends with a balance of -1, contradicting the
required one-success outcome with a final balance of 0. -/
theorem scan_race_both_succeed :
    (runRace ⟨1, ⟨0, 0, none⟩, ⟨0, 0, none⟩⟩ [true, false, true, false]).proc1.result
        = some true ∧
    (runRace ⟨1, ⟨0, 0, none⟩, ⟨0, 0, none⟩⟩ [true, false, true, false]).proc2.result
        = some true ∧
    (runRace ⟨1, ⟨0, 0, none⟩, ⟨0, 0, none⟩⟩ [true, false, true, false]).credits = -1 := by
  decide

/-- Claim C2 is refuted by the code: the approve route looks the request
up by id alone, so approving the same request twice answers ok both
times and grants the amount twice (balance 20 becomes 25, then 30),
instead of rejecting the second call and granting at most once. -/
theorem approve_twice_double_grants :
    ((approveRequest ⟨[⟨2, "user", 20⟩], [], [⟨1, 2, 5, "pending"⟩], [], 3, 2⟩ 1).2
        = .ok) ∧
    ((approveRequest ⟨[⟨2, "user", 20⟩], [], [⟨1, 2, 5, "pending"⟩], [], 3, 2⟩
        1).1.users.map (fun u => u.credits) = [25]) ∧
    ((approveRequest (approveRequest ⟨[⟨2, "user", 20⟩], [], [⟨1, 2, 5, "pending"⟩],
        [], 3, 2⟩ 1).1 1).2 = .ok) ∧
    ((approveRequest (approveRequest ⟨[⟨2, "user", 20⟩], [], [⟨1, 2, 5, "pending"⟩],
        [], 3, 2⟩ 1).1 1).1.users.map (fun u => u.credits) = [30]) ∧
    ((approveRequest (approveRequest ⟨[⟨2, "user", 20⟩], [], [⟨1, 2, 5, "pending"⟩],
        [], 3, 2⟩ 1).1 1).1.requests.map (fun r => r.status) = ["approved"]) := by
  decide

/-- Claim C6: a scan by an existing user whose balance is below 1 is
rejected as insufficient credit and the state is returned untouched: no
deduction, no stored document, no comparison output. -/
theorem submitScan_insufficient_no_side_effects (db : DB) (uid : Nat)
    (text fileName : String) (now : Nat) (putOk : Bool) (u : UserRec)
    (ht : text ≠ "") (hf : fileName ≠ "")
    (hu : db.users.find? (fun v => v.id = uid) = some u) (hc : u.credits < 1) :
    submitScan db uid text fileName now putOk = (db, .insufficientCredit) := by
  unfold submitScan
  rw [if_neg (fun h => h.elim ht hf), hu]
  dsimp only
  rw [if_pos hc]

theorem submitScan_insufficient_no_side_effects_witness :
    submitScan ⟨[⟨1, "user", 0⟩], [], [], [], 2, 1⟩ 1 "hello" "a.txt" 5 true =
      (⟨[⟨1, "user", 0⟩], [], [], [], 2, 1⟩, .insufficientCredit) :=
  submitScan_insufficient_no_side_effects _ 1 "hello" "a.txt" 5 true ⟨1, "user", 0⟩
    (by decide) (by decide) (by decide) (by decide)

/-- Claim C7: when the credit gate passes but the storage write faults,
the scan answers a server fault with the balance already decremented and
no document row or body stored; the deducted credit is not refunded. -/
theorem submitScan_storage_fault_keeps_deduction (db : DB) (uid : Nat)
    (text fileName : String) (now : Nat) (u : UserRec)
    (ht : text ≠ "") (hf : fileName ≠ "")
    (hu : db.users.find? (fun v => v.id = uid) = some u) (hc : 1 ≤ u.credits) :
    submitScan db uid text fileName now false =
      ({ db with users := deductCredit db.users uid }, .serverError) := by
  unfold submitScan
  rw [if_neg (fun h => h.elim ht hf), hu]
  dsimp only
  rw [if_neg (by omega)]
  rfl

theorem submitScan_storage_fault_keeps_deduction_witness :
    submitScan ⟨[⟨1, "user", 5⟩], [], [], [], 2, 1⟩ 1 "hello" "a.txt" 9 false =
      (⟨[⟨1, "user", 4⟩], [], [], [], 2, 1⟩, .serverError) := by
  have h := submitScan_storage_fault_keeps_deduction
    ⟨[⟨1, "user", 5⟩], [], [], [], 2, 1⟩ 1 "hello" "a.txt" 9 ⟨1, "user", 5⟩
    (by decide) (by decide) (by decide) (by decide)
  rw [h]
  decide

theorem submitScan_success (db : DB) (uid : Nat) (text fileName : String) (now : Nat)
    (u : UserRec) (ht : text ≠ "") (hf : fileName ≠ "")
    (hu : db.users.find? (fun v => v.id = uid) = some u) (hc : 1 ≤ u.credits) :
    submitScan db uid text fileName now true =
      ({ db with
          users := deductCredit db.users uid,
          storage := putBlob db.storage (toString now ++ "_" ++ fileName) text,
          documents := ⟨uid, toString now ++ "_" ++ fileName, fileName⟩ :: db.documents },
        .completed now (u.credits - 1)
          (compareLoop (putBlob db.storage (toString now ++ "_" ++ fileName) text) text
            (listExcept (⟨uid, toString now ++ "_" ++ fileName, fileName⟩ :: db.documents)
              (toString now ++ "_" ++ fileName)))) := by
  unfold submitScan
  rw [if_neg (fun h => h.elim ht hf), hu]
  dsimp only
  rw [if_neg (by omega)]
  rfl

theorem compareLoop_skip_unreadable (storage : List (String × String)) (text : String)
    (l1 l2 : List DocumentRec) (d : DocumentRec)
    (h : readBlob storage d.filePath = none) :
    compareLoop storage text (l1 ++ d :: l2) = compareLoop storage text (l1 ++ l2) := by
  induction l1 with
  | nil => simpa using compareLoop_cons_none storage text d l2 h
  | cons a l ih =>
    simp only [List.cons_append]
    cases hr : readBlob storage a.filePath with
    | none =>
      rw [compareLoop_cons_none storage text a (l ++ d :: l2) hr,
        compareLoop_cons_none storage text a (l ++ l2) hr, ih]
    | some t =>
      rw [compareLoop_cons_some storage text a (l ++ d :: l2) t hr,
        compareLoop_cons_some storage text a (l ++ l2) t hr, ih]

/-- Claim C8: an existing document row whose stored body cannot be read
does not abort the scan: the response is the same as if that row were
absent, the scan still completes with the remaining rows compared, and
the new document row is persisted. -/
theorem submitScan_skips_unreadable (db : DB) (uid : Nat) (text fileName : String)
    (now : Nat) (u : UserRec) (l1 l2 : List DocumentRec) (d : DocumentRec)
    (ht : text ≠ "") (hf : fileName ≠ "")
    (hu : db.users.find? (fun v => v.id = uid) = some u) (hc : 1 ≤ u.credits)
    (hdocs : db.documents = l1 ++ d :: l2)
    (hread : readBlob (putBlob db.storage (toString now ++ "_" ++ fileName) text)
        d.filePath = none) :
    (submitScan db uid text fileName now true).2 =
      (submitScan { db with documents := l1 ++ l2 } uid text fileName now true).2 ∧
    (submitScan db uid text fileName now true).2 =
      .completed now (u.credits - 1)
        (compareLoop (putBlob db.storage (toString now ++ "_" ++ fileName) text) text
          (listExcept (l1 ++ l2) (toString now ++ "_" ++ fileName))) ∧
    (⟨uid, toString now ++ "_" ++ fileName, fileName⟩ : DocumentRec) ∈
      (submitScan db uid text fileName now true).1.documents := by
  have hdk : d.filePath ≠ toString now ++ "_" ++ fileName := by
    intro he
    rw [he] at hread
    simp [readBlob, putBlob, List.lookup] at hread
  have hfilter : listExcept
      ((⟨uid, toString now ++ "_" ++ fileName, fileName⟩ : DocumentRec) :: (l1 ++ d :: l2))
      (toString now ++ "_" ++ fileName) =
      listExcept l1 (toString now ++ "_" ++ fileName) ++
        d :: listExcept l2 (toString now ++ "_" ++ fileName) := by
    simp [listExcept, List.filter_append, List.filter_cons, hdk]
  have hfilter2 : listExcept
      ((⟨uid, toString now ++ "_" ++ fileName, fileName⟩ : DocumentRec) :: (l1 ++ l2))
      (toString now ++ "_" ++ fileName) =
      listExcept l1 (toString now ++ "_" ++ fileName) ++
        listExcept l2 (toString now ++ "_" ++ fileName) := by
    simp [listExcept, List.filter_append]
  have hfilter3 : listExcept (l1 ++ l2) (toString now ++ "_" ++ fileName) =
      listExcept l1 (toString now ++ "_" ++ fileName) ++
        listExcept l2 (toString now ++ "_" ++ fileName) := by
    simp [listExcept, List.filter_append]
  have hs1 := submitScan_success db uid text fileName now u ht hf hu hc
  have hs2 := submitScan_success { db with documents := l1 ++ l2 } uid text fileName now u
    ht hf hu hc
  refine ⟨?_, ?_, ?_⟩
  · rw [hs1, hs2]
    dsimp only
    rw [hdocs, hfilter, hfilter2,
      compareLoop_skip_unreadable _ text _ _ d hread]
  · rw [hs1]
    dsimp only
    rw [hdocs, hfilter, compareLoop_skip_unreadable _ text _ _ d hread, hfilter3]
  · rw [hs1]
    dsimp only
    exact List.mem_cons_self _ _

theorem submitScan_skips_unreadable_witness :
    ((submitScan ⟨[⟨1, "user", 3⟩], [⟨1, "k_old", "old.txt"⟩], [], [], 2, 1⟩
        1 "hello" "new.txt" 10 true).2 =
      (submitScan ⟨[⟨1, "user", 3⟩], [], [], [], 2, 1⟩ 1 "hello" "new.txt" 10 true).2) ∧
    ((submitScan ⟨[⟨1, "user", 3⟩], [⟨1, "k_old", "old.txt"⟩], [], [], 2, 1⟩
        1 "hello" "new.txt" 10 true).2 =
      .completed 10 2
        (compareLoop (putBlob [] (toString 10 ++ "_" ++ "new.txt") "hello") "hello"
          (listExcept [] (toString 10 ++ "_" ++ "new.txt")))) ∧
    ((⟨1, toString 10 ++ "_" ++ "new.txt", "new.txt"⟩ : DocumentRec) ∈
      (submitScan ⟨[⟨1, "user", 3⟩], [⟨1, "k_old", "old.txt"⟩], [], [], 2, 1⟩
        1 "hello" "new.txt" 10 true).1.documents) := by
  have h := submitScan_skips_unreadable
    ⟨[⟨1, "user", 3⟩], [⟨1, "k_old", "old.txt"⟩], [], [], 2, 1⟩ 1 "hello" "new.txt" 10
    ⟨1, "user", 3⟩ [] [] ⟨1, "k_old", "old.txt"⟩
    (by decide) (by decide) (by decide) (by decide) rfl (by decide)
  exact h

/-- Claim C10: the corpus read-back returns exactly the stored rows whose
storage key differs from the given key; a row sharing the key of the new
submission is therefore excluded from the comparison, while the body
stored under that key is the newly written one. -/
theorem listExcept_exact (docs : List DocumentRec) (key : String) :
    (∀ d, d ∈ listExcept docs key ↔ d ∈ docs ∧ d.filePath ≠ key) ∧
    (∀ d ∈ docs, d.filePath = key → d ∉ listExcept docs key) ∧
    (∀ st text, readBlob (putBlob st key text) key = some text) := by
  have hmem : ∀ d, d ∈ listExcept docs key ↔ d ∈ docs ∧ d.filePath ≠ key := by
    intro d
    simp [listExcept, List.mem_filter]
  refine ⟨hmem, ?_, ?_⟩
  · intro d _ he hcontra
    exact ((hmem d).mp hcontra).2 he
  · intro st text
    simp [readBlob, putBlob, List.lookup]

theorem listExcept_exact_witness :
    ((⟨1, "33_a.txt", "a.txt"⟩ : DocumentRec) ∉
      listExcept [⟨1, "33_a.txt", "a.txt"⟩, ⟨2, "44_b.txt", "b.txt"⟩] "33_a.txt") ∧
    ((⟨2, "44_b.txt", "b.txt"⟩ : DocumentRec) ∈
      listExcept [⟨1, "33_a.txt", "a.txt"⟩, ⟨2, "44_b.txt", "b.txt"⟩] "33_a.txt") ∧
    readBlob (putBlob [("33_a.txt", "old body")] "33_a.txt" "new body") "33_a.txt"
      = some "new body" := by
  have h := listExcept_exact [⟨1, "33_a.txt", "a.txt"⟩, ⟨2, "44_b.txt", "b.txt"⟩] "33_a.txt"
  refine ⟨h.2.1 _ (by decide) rfl, ?_, h.2.2 [("33_a.txt", "old body")] "new body"⟩
  exact (h.1 _).mpr ⟨by decide, by decide⟩

theorem pairwise_id_unique (u v : UserRec) :
    ∀ l : List UserRec, l.Pairwise (fun a b => a.id ≠ b.id) →
      u ∈ l → v ∈ l → u.id = v.id → u = v := by
  intro l
  induction l with
  | nil => intro _ hu _ _; cases hu
  | cons a t ih =>
    intro hp hu hv hid
    rw [List.pairwise_cons] at hp
    rcases List.mem_cons.mp hu with h1 | h1 <;> rcases List.mem_cons.mp hv with h2 | h2
    · rw [h1, h2]
    · subst h1; exact absurd hid (hp.1 v h2)
    · subst h2; exact absurd hid.symm (hp.1 u h1)
    · exact ih hp.2 h1 h2 hid

theorem pairwise_ids_map (l : List UserRec) (f : UserRec → UserRec)
    (hf : ∀ u, (f u).id = u.id) (h : l.Pairwise (fun a b => a.id ≠ b.id)) :
    (l.map f).Pairwise (fun a b => a.id ≠ b.id) := by
  rw [List.pairwise_map]
  refine h.imp ?_
  intro a b hab
  rw [hf, hf]
  exact hab

theorem ids_bound_map (l : List UserRec) (f : UserRec → UserRec)
    (hf : ∀ u, (f u).id = u.id) (n : Nat) (h : ∀ u ∈ l, u.id < n) :
    ∀ u ∈ l.map f, u.id < n := by
  intro u hu
  rcases List.mem_map.mp hu with ⟨v, hv, rfl⟩
  rw [hf]
  exact h v hv

theorem submitScan_fst_cases (db : DB) (uid : Nat) (text fileName : String) (now : Nat)
    (putOk : Bool) :
    (submitScan db uid text fileName now putOk).1 = db ∨
    ∃ u, u ∈ db.users ∧ u.id = uid ∧ 1 ≤ u.credits ∧
      (submitScan db uid text fileName now putOk).1.users = deductCredit db.users uid ∧
      (submitScan db uid text fileName now putOk).1.requests = db.requests ∧
      (submitScan db uid text fileName now putOk).1.nextUserId = db.nextUserId := by
  unfold submitScan
  split
  · exact Or.inl rfl
  · split
    · exact Or.inl rfl
    · next u heq =>
      have hmem := List.mem_of_find?_eq_some heq
      have hid : u.id = uid := by simpa using List.find?_some heq
      split
      · exact Or.inl rfl
      · next hlt =>
        refine Or.inr ⟨u, hmem, hid, by omega, ?_, ?_, ?_⟩ <;> cases putOk <;> rfl

theorem applyOp_preserves (db : DB) (op : Op) (h : CreditsInv db) :
    CreditsInv (applyOp db op) := by
  obtain ⟨hcred, hreq, hpair, hids⟩ := h
  cases op with
  | register =>
    have key : applyOp db Op.register =
        { db with
          users := ⟨db.nextUserId, "user", 20⟩ :: db.users,
          nextUserId := db.nextUserId + 1 } := by
      simp only [applyOp, registerUser]
    rw [key]
    refine ⟨?_, hreq, ?_, ?_⟩
    · intro u hu
      rcases List.mem_cons.mp hu with h1 | h1
      · subst h1
        show (0 : Int) ≤ 20
        decide
      · exact hcred u h1
    · rw [List.pairwise_cons]
      refine ⟨?_, hpair⟩
      intro b hb
      have := hids b hb
      show db.nextUserId ≠ b.id
      omega
    · intro u hu
      rcases List.mem_cons.mp hu with h1 | h1
      · subst h1
        show db.nextUserId < db.nextUserId + 1
        omega
      · have := hids u h1
        show u.id < db.nextUserId + 1
        omega
  | scan uid text fileName now putOk =>
    rcases submitScan_fst_cases db uid text fileName now putOk with
      heq | ⟨u, hmem, hid, hc1, husers, hreqs, hnext⟩
    · have key : applyOp db (Op.scan uid text fileName now putOk) = db := heq
      rw [key]
      exact ⟨hcred, hreq, hpair, hids⟩
    · have key : applyOp db (Op.scan uid text fileName now putOk) =
          (submitScan db uid text fileName now putOk).1 := rfl
      rw [key]
      refine ⟨?_, ?_, ?_, ?_⟩
      · intro v hv
        rw [husers] at hv
        simp only [deductCredit] at hv
        rcases List.mem_map.mp hv with ⟨w, hw, rfl⟩
        have hwc := hcred w hw
        by_cases hwid : w.id = uid
        · have hwu : w = u := pairwise_id_unique w u db.users hpair hw hmem
            (by rw [hwid, hid])
          rw [if_pos hwid]
          show 0 ≤ w.credits - 1
          rw [hwu]
          omega
        · dsimp only
          rw [if_neg hwid]
          exact hwc
      · intro r hr
        rw [hreqs] at hr
        exact hreq r hr
      · rw [husers]
        exact pairwise_ids_map db.users _ (fun u => by split <;> rfl) hpair
      · intro v hv
        rw [husers] at hv
        rw [hnext]
        exact ids_bound_map db.users _ (fun u => by split <;> rfl)
          db.nextUserId hids v hv
  | request uid amount =>
    by_cases hlt : amount < 1
    · have key : applyOp db (Op.request uid amount) = db := by
        simp only [applyOp, requestCredits, if_pos hlt]
      rw [key]
      exact ⟨hcred, hreq, hpair, hids⟩
    · have key : applyOp db (Op.request uid amount) =
          { db with
            requests := ⟨db.nextRequestId, uid, amount, "pending"⟩ :: db.requests,
            nextRequestId := db.nextRequestId + 1 } := by
        simp only [applyOp, requestCredits, if_neg hlt]
      rw [key]
      refine ⟨hcred, ?_, hpair, hids⟩
      intro q hq
      rcases List.mem_cons.mp hq with h1 | h1
      · subst h1
        show (1 : Int) ≤ amount
        omega
      · exact hreq q h1
  | approve reqId =>
    cases heq : db.requests.find? (fun r => r.id = reqId) with
    | none =>
      have key : applyOp db (Op.approve reqId) = db := by
        simp only [applyOp, approveRequest, heq]
      rw [key]
      exact ⟨hcred, hreq, hpair, hids⟩
    | some r =>
      have hrmem := List.mem_of_find?_eq_some heq
      have hamt : 1 ≤ r.amount := hreq r hrmem
      have key : applyOp db (Op.approve reqId) =
          { db with
            users := grantCredits db.users r.userId r.amount,
            requests := db.requests.map
              (fun q => if q.id = reqId then { q with status := "approved" } else q) } := by
        simp only [applyOp, approveRequest, heq]
      rw [key]
      refine ⟨?_, ?_, ?_, ?_⟩
      · intro v hv
        simp only [grantCredits] at hv
        rcases List.mem_map.mp hv with ⟨w, hw, rfl⟩
        have hwc := hcred w hw
        by_cases hwid : w.id = r.userId
        · dsimp only
          rw [if_pos hwid]
          show 0 ≤ w.credits + r.amount
          omega
        · dsimp only
          rw [if_neg hwid]
          exact hwc
      · intro q hq
        rcases List.mem_map.mp hq with ⟨w, hw, rfl⟩
        have hwa := hreq w hw
        split
        · exact hwa
        · exact hwa
      · exact pairwise_ids_map db.users _ (fun u => by split <;> rfl) hpair
      · intro v hv
        exact ids_bound_map db.users _ (fun u => by split <;> rfl)
          db.nextUserId hids v hv
  | reject reqId =>
    have key : applyOp db (Op.reject reqId) =
        { db with
          requests := db.requests.map
            (fun q => if q.id = reqId then { q with status := "rejected" } else q) } := by
      simp only [applyOp, rejectRequest]
    rw [key]
    refine ⟨hcred, ?_, hpair, hids⟩
    intro q hq
    rcases List.mem_map.mp hq with ⟨w, hw, rfl⟩
    have hwa := hreq w hw
    split
    · exact hwa
    · exact hwa
  | reset =>
    have key : applyOp db Op.reset =
        { db with
          users := db.users.map
            (fun u => if u.role = "user" then { u with credits := 20 } else u) } := by
      simp only [applyOp, resetCredits]
    rw [key]
    refine ⟨?_, hreq, ?_, ?_⟩
    · intro v hv
      rcases List.mem_map.mp hv with ⟨w, hw, rfl⟩
      have hwc := hcred w hw
      split
      · show (0 : Int) ≤ 20
        decide
      · exact hwc
    · exact pairwise_ids_map db.users _ (fun u => by split <;> rfl) hpair
    · intro v hv
      exact ids_bound_map db.users _ (fun u => by split <;> rfl)
        db.nextUserId hids v hv

theorem runOps_preserves (ops : List Op) :
    ∀ db : DB, CreditsInv db → CreditsInv (runOps db ops) := by
  induction ops with
  | nil => intro db h; exact h
  | cons op ops ih =>
    intro db h
    exact ih (applyOp db op) (applyOp_preserves db op h)

/-- Claim C9: starting from a state satisfying the credit invariant (all
balances non-negative, stored request amounts at least 1, distinct user
ids below the autoincrement counter), no sequence of operations of the
subsystem (registration at 20 credits, scan deduction, credit request,
approval grant, rejection, daily reset to 20) produces a negative
balance. -/
theorem credits_never_negative (db : DB) (ops : List Op) (h : CreditsInv db) :
    ∀ u ∈ (runOps db ops).users, 0 ≤ u.credits :=
  (runOps_preserves ops db h).1

theorem credits_never_negative_witness :
    (⟨1, "user", 20⟩ : UserRec) ∈ (runOps ⟨[⟨1, "user", 1⟩], [], [], [], 2, 1⟩
        [Op.scan 1 "hello" "a.txt" 4 true, Op.register, Op.request 1 5, Op.approve 1,
          Op.reset]).users ∧
    0 ≤ (⟨1, "user", 20⟩ : UserRec).credits :=
  ⟨by decide,
   credits_never_negative ⟨[⟨1, "user", 1⟩], [], [], [], 2, 1⟩
    [Op.scan 1 "hello" "a.txt" 4 true, Op.register, Op.request 1 5, Op.approve 1, Op.reset]
    ⟨by decide, by decide, by simp, by decide⟩ ⟨1, "user", 20⟩ (by decide)⟩
